import Mathlib

/-!
Verification of `bddrest/specification.py`: the Call / Response /
OverriddenCall / Story data model, URL-parameter extraction, the
diff/override mechanism and the serialization round trips.

Strings are modelled on `String` / `List Char`.  The two regular
expressions of the source (`URL_PARAMETER_PATTERN` and
`CONTENT_TYPE_PATTERN`) are embedded as deterministic matchers: both
patterns are free of ambiguity (the character classes of adjacent
pieces are disjoint), so Python's leftmost greedy backtracking search
coincides with maximal-munch scanning, implemented below.

The helpers `normalize_headers` / `normalize_query_string` live in
`bddrest/helpers.py`, which is not part of the sources; they are
modelled from the spec's contract (section 6) where noted.
-/

/-- Python's `\w` on the ASCII inputs used here: letters, digits, underscore. -/
def isWordChar (c : Char) : Bool := c.isAlphanum || c == '_'

/-- The character class `[\w\d_-]` of `URL_PARAMETER_VALUE_PATTERN`. -/
def isValueChar (c : Char) : Bool := isWordChar c || c == '-'

/-- Python's `\s` (ASCII whitespace). -/
def isSpaceChar (c : Char) : Bool :=
  c == ' ' || c == '\t' || c == '\n' || c == '\r' || c == '\x0b' || c == '\x0c'

/-- Greedy `p+`: take a maximal nonempty run of characters satisfying `p`,
returning the run and the remainder, or `none` if the first character fails. -/
def takeW1 (p : Char → Bool) : List Char → Option (List Char × List Char)
  | [] => none
  | c :: cs => if p c then some (c :: cs.takeWhile p, cs.dropWhile p) else none

/-- Greedy `\s?` in a position where the following piece cannot match a
whitespace character: consume one whitespace character if present. -/
def dropOptSpace : List Char → List Char
  | [] => []
  | c :: rest => if isSpaceChar c then rest else c :: rest

/-- Match a literal string at the head of the input, returning the remainder. -/
def dropLit : List Char → List Char → Option (List Char)
  | [], l => some l
  | _ :: _, [] => none
  | a :: as, b :: bs => if a = b then dropLit as bs else none

/-- One attempted match of `URL_PARAMETER_PATTERN` =
`/(?P<key>\w+):\s?(?P<value>[\w\d_-]+)` anchored at the head of the input.
Returns `(key, value, remainder)` on success.  The pattern is
deterministic: `\w+` is greedy and `:` is not a word character, and a
whitespace character is never a value character, so no backtracking can
produce a different result. -/
def matchParam (l : List Char) : Option (List Char × List Char × List Char) :=
  match l with
  | '/' :: rest =>
    match takeW1 isWordChar rest with
    | some (key, r1) =>
      match r1 with
      | ':' :: r2 =>
        match takeW1 isValueChar (dropOptSpace r2) with
        | some (value, r4) => some (key, value, r4)
        | none => none
      | _ => none
    | none => none
  | _ => none

/-- Embedding of `URL_PARAMETER_PATTERN.search(url)`: does any position
of the input start a match? -/
def searchParam : List Char → Bool
  | [] => false
  | c :: cs => (matchParam (c :: cs)).isSome || searchParam cs

/-- Fuelled scan for `findall`: at each position try a match, resume
after it on success, advance one character on failure.  Structural
recursion on the fuel keeps the function kernel-computable; by
`matchParam_rest_lt` every step strictly shrinks the input, so fuel
equal to the input length never runs out. -/
def findAllF : Nat → List Char → List (List Char × List Char)
  | 0, _ => []
  | _ + 1, [] => []
  | fuel + 1, c :: cs =>
    match matchParam (c :: cs) with
    | some (k, v, r) => (k, v) :: findAllF fuel r
    | none => findAllF fuel cs

/-- Embedding of `URL_PARAMETER_PATTERN.findall(url)`: all non-overlapping
matches, scanning left to right, resuming after each match. -/
def findAll (l : List Char) : List (List Char × List Char) :=
  findAllF l.length l

/-- One attempted match of the substitution pattern
`f'{k}:\s?{URL_PARAMETER_VALUE_PATTERN}'` anchored at the head of the
input (note: no leading slash, so it can fire inside larger words).
Returns the remainder on success. -/
def matchKV (k : List Char) (l : List Char) : Option (List Char) :=
  match dropLit k l with
  | some (':' :: r2) =>
    match takeW1 isValueChar (dropOptSpace r2) with
    | some (_, r4) => some r4
    | none => none
  | _ => none

/-- Fuelled scan for the substitution, structurally recursive on the
fuel; by `matchKV_rest_lt` every replacement strictly shrinks the
input, so fuel equal to the input length never runs out. -/
def subKVF (k : List Char) : Nat → List Char → List Char
  | 0, l => l
  | _ + 1, [] => []
  | fuel + 1, c :: cs =>
    match matchKV k (c :: cs) with
    | some r => ':' :: (k ++ subKVF k fuel r)
    | none => c :: subKVF k fuel cs

/-- Embedding of `re.sub(f'{k}:\s?{URL_PARAMETER_VALUE_PATTERN}', f':{k}', url)`:
replace every non-overlapping occurrence with `:` followed by the key,
resuming after the replaced text. -/
def subKV (k : List Char) (l : List Char) : List Char :=
  subKVF k l.length l

/-- Python dict assignment `d[k] = v` on an insertion-ordered association
list: overwrite in place if the key exists, else append. -/
def dictInsert : List (String × String) → String → String → List (String × String)
  | [], k, v => [(k, v)]
  | (k1, v1) :: rest, k, v =>
    if k1 = k then (k, v) :: rest else (k1, v1) :: dictInsert rest k v

/-- Python `d.update(m)`: assign every pair of `m` into `d`, left to right. -/
def foldUpdate (d : List (String × String)) (m : List (String × String)) :
    List (String × String) :=
  m.foldl (fun acc kv => dictInsert acc kv.1 kv.2) d

/-- Embedding of `Call.extract_url_parameters` (specification.py lines
117-124): if the parameter pattern occurs, record every `findall` match
into the parameter dict (later matches overwrite earlier ones per key)
and substitute `:key` for each `key: value` occurrence; otherwise return
the URL unchanged with an empty dict. -/
def extract_url_parameters (url : String) : String × List (String × String) :=
  if searchParam url.data then
    let r := (findAll url.data).foldl
      (fun acc kv => (subKV kv.1 acc.1, dictInsert acc.2 (String.mk kv.1) (String.mk kv.2)))
      (url.data, ([] : List (String × String)))
    (String.mk r.1, r.2)
  else (url, [])

/-- Python errors raised by the code paths modelled here. -/
inductive PyErr
  | keyError
  | valueError
  | typeError

deriving DecidableEq

deriving instance DecidableEq for Except

/-- Python `' ' in status` (single-space containment test). -/
def hasSpace (l : List Char) : Bool := l.any (fun c => c = ' ')

/-- Python `status.split(' ')`: split on each single space character;
the empty string splits to one empty piece. -/
def splitSp (l : List Char) : List (List Char) :=
  match l with
  | [] => [[]]
  | ' ' :: rest => [] :: splitSp rest
  | c :: rest =>
    match splitSp rest with
    | h :: t => (c :: h) :: t
    | [] => [[c]]

/-- Python `' '.join(parts)`. -/
def joinSp : List (List Char) → List Char
  | [] => []
  | [x] => x
  | x :: xs => x ++ ' ' :: joinSp xs

/-- Fold a digit run into a natural number. -/
def digitsToNat (l : List Char) : Nat :=
  l.foldl (fun n c => n * 10 + (c.toNat - '0'.toNat)) 0

/-- Model of the Python builtin `int(s)` on the strings arising here:
surrounding whitespace is stripped, an optional sign is allowed, and the
rest must be a nonempty digit run; anything else raises `ValueError`. -/
def pyIntL (l : List Char) : Except PyErr Int :=
  let t := ((l.dropWhile isSpaceChar).reverse.dropWhile isSpaceChar).reverse
  match t with
  | '+' :: ds =>
    if ds ≠ [] ∧ ds.all Char.isDigit then .ok (Int.ofNat (digitsToNat ds))
    else .error .valueError
  | '-' :: ds =>
    if ds ≠ [] ∧ ds.all Char.isDigit then .ok (-(Int.ofNat (digitsToNat ds)))
    else .error .valueError
  | ds =>
    if ds ≠ [] ∧ ds.all Char.isDigit then .ok (Int.ofNat (digitsToNat ds))
    else .error .valueError

/-- Embedding of the status-line parsing in `Response.__init__` (lines
26-30): with a space, `status_code` is `int` of the first token and
`status_text` joins the remaining tokens; without a space the whole
line must parse as an integer and `status_text` stays absent. -/
def parseStatus (status : String) : Except PyErr (Int × Option String) :=
  let l := status.data
  if hasSpace l then
    match splitSp l with
    | p :: rest => (pyIntL p).map (fun n => (n, some (String.mk (joinSp rest))))
    | [] => .error .valueError
  else
    (pyIntL l).map (fun n => (n, none))

/-- A header as supplied to the normalization helper: either an already
split `(name, value)` pair or a raw `"Name: Value"` string. -/
inductive HeaderEntry
  | pair (p : String × String)
  | raw (s : String)

deriving DecidableEq

/-- Split a list at the first occurrence of the two-character separator
`": "`, or return `none` when it does not occur. -/
def splitColonSpace : List Char → Option (List Char × List Char)
  | [] => none
  | [_] => none
  | a :: b :: rest =>
    if a = ':' ∧ b = ' ' then some ([], rest)
    else
      match splitColonSpace (b :: rest) with
      | some (x, y) => some (a :: x, y)
      | none => none

/-- Modelled from the spec: the string shape accepted by
`normalize_headers` (bddrest/helpers.py, not among the sources) is the
serialized `"Name: Value"` form; it is parsed back at the first `": "`,
and a string without the separator becomes a name with empty value. -/
def parseHeader (s : String) : String × String :=
  match splitColonSpace s.data with
  | some (x, y) => (String.mk x, String.mk y)
  | none => (s, "")

/-- Serialization `': '.join(h)` used by `Call.to_dict` / `Response.to_dict`. -/
def serializeHeader (p : String × String) : String := p.1 ++ ": " ++ p.2

/-- Modelled from the spec: `normalize_headers` (bddrest/helpers.py, not
among the sources) returns a canonical ordered sequence of
`(name, value)` pairs, preserving order and supplied casing (section 6);
pairs pass through and raw strings are split at `": "`. -/
def normEntry : HeaderEntry → String × String
  | .pair p => p
  | .raw s => parseHeader s

/-- Modelled from the spec: `normalize_headers` on an optional header
collection; absence propagates as absence (section 7). -/
def normalizeHeadersOpt : Option (List HeaderEntry) → Option (List (String × String)) :=
  Option.map (List.map normEntry)

/-- Modelled from the spec: `normalize_query_string`
(bddrest/helpers.py, not among the sources) returns a canonical mapping;
absent or empty input yields an absent result (section 6). -/
def normalizeQuery : Option (List (String × String)) → Option (List (String × String))
  | none => none
  | some m => if m = [] then none else some m

/-- Embedding of `CONTENT_TYPE_PATTERN.match(v).groups()` for the
pattern `(\w+/\w+)(?:;\s?charset=(.+))?`: the first component is the
`type/subtype` group (or `none` when the match fails), the second the
charset group (`none` when the optional group is not taken).  `.+` is a
maximal nonempty run of non-newline characters. -/
def ctParse (v : String) : Option String × Option String :=
  match takeW1 isWordChar v.data with
  | none => (none, none)
  | some (w1, r1) =>
    match r1 with
    | '/' :: r2 =>
      match takeW1 isWordChar r2 with
      | none => (none, none)
      | some (w2, r3) =>
        let g1 := String.mk (w1 ++ '/' :: w2)
        let enc : Option String :=
          match r3 with
          | ';' :: r4 =>
            match dropLit ("charset=".data) (dropOptSpace r4) with
            | some r6 =>
              let t := r6.takeWhile (fun c => c ≠ '\n')
              if t = [] then none else some (String.mk t)
            | none => none
          | _ => none
        (some g1, enc)
    | _ => (none, none)

/-- Embedding of the `Response` object state: the raw status line, the
normalized headers, the body (bytes modelled as an optional string) and
the derived attributes computed in `Response.__init__`. -/
structure Response where
  status : String
  headers : List (String × String)
  body : Option String
  status_code : Int
  status_text : Option String
  content_type : Option String
  encoding : Option String

deriving DecidableEq

/-- Embedding of `Response.__init__` (lines 21-37): normalize the
headers, keep the body, parse the status line (a failing `int` raises
`ValueError`), then examine only the first header — the `break` in the
source sits at loop-body level, so the loop never reaches a second
header — and derive `content_type`/`encoding` when its name is exactly
`Content-Type`. -/
def mkResponse (status : String) (headers : List HeaderEntry) (body : Option String) :
    Except PyErr Response :=
  let hs := headers.map normEntry
  match parseStatus status with
  | .error e => .error e
  | .ok (code, text) =>
    let ct : Option String × Option String :=
      match hs with
      | [] => (none, none)
      | (k, v) :: _ => if k = "Content-Type" then ctParse v else (none, none)
    .ok ⟨status, hs, body, code, text, ct.1, ct.2⟩

/-- Python truthiness filter used by `to_dict` on the body: an absent or
empty body serializes to nothing. -/
def truthyFilter : Option String → Option String
  | none => none
  | some s => if s = "" then none else some s

/-- The plain-mapping form produced by `Response.to_dict` (lines 47-56):
`status` always, `headers` and `body` only when truthy. -/
structure RespDict where
  status : String
  headers : Option (List String)
  body : Option String

deriving DecidableEq

/-- Embedding of `Response.to_dict`. -/
def Response.to_dict (r : Response) : RespDict :=
  { status := r.status
    headers := if r.headers = [] then none else some (r.headers.map serializeHeader)
    body := truthyFilter r.body }

/-- Reconstruction `Response(**v)` from a serialized response mapping:
`status` is required, `headers` is a required positional parameter of
`Response.__init__` — a mapping without it raises `TypeError` — and
`body` defaults to absent. -/
def respFromDict (d : RespDict) : Except PyErr Response :=
  match d.headers with
  | none => .error .typeError
  | some hs => mkResponse d.status (hs.map .raw) d.body

/-- The `response` argument accepted by `Call.__init__`: either an
existing `Response` object or a serialized mapping. -/
inductive RespIn
  | obj (r : Response)
  | dict (d : RespDict)

deriving DecidableEq

/-- Embedding of the `Call.response` setter (lines 84-86): a mapping is
wrapped into a `Response`, an object or absence passes through. -/
def resolveResponse : Option RespIn → Except PyErr (Option Response)
  | none => .ok none
  | some (.obj r) => .ok (some r)
  | some (.dict d) => (respFromDict d).map some

/-- Embedding of the `Call` object state after `Call.__init__` (lines
62-78).  `url_parameters` is always a dict (never absent): extraction
returns one even when empty.  Bodies of `form`, query mappings and
`extra_environ` are modelled as insertion-ordered association lists. -/
structure Call where
  title : String
  url : String
  url_parameters : List (String × String)
  verb : String
  form : Option (List (String × String))
  content_type : Option String
  headers : Option (List (String × String))
  as_ : Option String
  query : Option (List (String × String))
  description : Option String
  extra_environ : Option (List (String × String))
  response : Option Response

deriving DecidableEq

/-- The keyword arguments of `Call.__init__`, with the source defaults. -/
structure CallArgs where
  title : String
  url : String := "/"
  verb : String := "GET"
  url_parameters : Option (List (String × String)) := none
  form : Option (List (String × String)) := none
  content_type : Option String := none
  headers : Option (List HeaderEntry) := none
  as_ : Option String := none
  query : Option (List (String × String)) := none
  description : Option String := none
  extra_environ : Option (List (String × String)) := none
  response : Option RespIn := none

/-- Python truthiness of an optional mapping (`if url_parameters:` etc.):
present and nonempty. -/
def optListTruthy {α : Type} : Option (List α) → Bool
  | some (_ :: _) => true
  | _ => false

/-- Python truthiness of an optional string (`if self.content_type:`). -/
def optStrTruthy : Option String → Bool
  | some s => !s.isEmpty
  | none => false

/-- Embedding of `Call.__init__` (lines 62-78): resolve the response
argument (wrapping a mapping may raise), extract URL parameters from the
URL, merge an explicitly supplied truthy `url_parameters` mapping on top,
and normalize headers and query string. -/
def mkCall (a : CallArgs) : Except PyErr Call :=
  match resolveResponse a.response with
  | .error e => .error e
  | .ok resp =>
    let e := extract_url_parameters a.url
    let ups :=
      if optListTruthy a.url_parameters then foldUpdate e.2 (a.url_parameters.getD [])
      else e.2
    .ok
      { title := a.title
        url := e.1
        url_parameters := ups
        verb := a.verb
        form := a.form
        content_type := a.content_type
        headers := normalizeHeadersOpt a.headers
        as_ := a.as_
        query := normalizeQuery a.query
        description := a.description
        extra_environ := a.extra_environ
        response := resp }

/-- The plain-mapping form produced by `Call.to_dict` (lines 88-115):
`title`, `url`, `verb` always; the other keys only when the attribute is
not `None`.  `content_type` and `extra_environ` are never serialized. -/
structure CallDict where
  title : String
  url : String
  verb : String
  url_parameters : Option (List (String × String))
  form : Option (List (String × String))
  headers : Option (List String)
  as_ : Option String
  query : Option (List (String × String))
  description : Option String
  response : Option RespDict

deriving DecidableEq

/-- Embedding of `Call.to_dict`.  Note `self.url_parameters` is never
`None` after construction, so the `is not None` guard always fires and
the key is always present (possibly as an empty mapping). -/
def Call.to_dict (c : Call) : CallDict :=
  { title := c.title
    url := c.url
    verb := c.verb
    url_parameters := some c.url_parameters
    form := c.form
    headers := c.headers.map (List.map serializeHeader)
    as_ := c.as_
    query := c.query
    description := c.description
    response := c.response.map Response.to_dict }

/-- Reconstruction `Call(**d)` from a serialized call mapping: every key
of the mapping binds the keyword parameter of the same name; serialized
headers arrive as raw `"Name: Value"` strings, a serialized response as
a mapping. -/
def callFromDict (d : CallDict) : Except PyErr Call :=
  mkCall
    { title := d.title
      url := d.url
      verb := d.verb
      url_parameters := d.url_parameters
      form := d.form
      headers := d.headers.map (List.map HeaderEntry.raw)
      as_ := d.as_
      query := d.query
      description := d.description
      response := d.response.map RespIn.dict }

/-- Lowercase a string (Python `str.lower` on the ASCII inputs here). -/
def lowerStr (s : String) : String := String.mk (s.data.map Char.toLower)

/-- Characters `urllib.parse.quote_plus` passes through unescaped. -/
def isUrlSafe (c : Char) : Bool :=
  c.isAlphanum || c == '_' || c == '.' || c == '-' || c == '~'

/-- One hexadecimal digit, uppercase. -/
def hexDigit (n : Nat) : Char :=
  if n < 10 then Char.ofNat (48 + n) else Char.ofNat (55 + n)

/-- Percent-encode a single character as `quote_plus` does (ASCII model). -/
def quoteChar (c : Char) : List Char :=
  if isUrlSafe c then [c]
  else if c == ' ' then ['+']
  else ['%', hexDigit (c.toNat / 16 % 16), hexDigit (c.toNat % 16)]

/-- Model of `urllib.parse.urlencode` (Python stdlib, external to the
repository): `k=v` pairs joined by `&`, both sides quoted. -/
def urlencode (q : List (String × String)) : String :=
  String.intercalate "&"
    (q.map fun kv =>
      String.mk ((kv.1.data.flatMap quoteChar) ++ '=' :: kv.2.data.flatMap quoteChar))

/-- The keyword arguments the transport receives (`request_params` plus
verb and URL). -/
structure RequestParams where
  expect_errors : Bool
  extra_environ : Option (List (String × String))
  headers : List (String × String)
  params : Option (List (String × String))

deriving DecidableEq

/-- What the external transport returns: a status line, a header
mapping, and the body bytes. -/
structure TransportResp where
  status : String
  headers : List (String × String)
  body : Option String

/-- The external application-under-test composed with the webtest
transport, treated as a black box: verb and URL and request parameters
in, transport response out. -/
def App : Type := String → String → RequestParams → TransportResp

/-- Embedding of `Call.invoke` (lines 126-146), statement by statement
with the object state threaded explicitly: every assignment in the
source is to a local variable (`url`, `headers`, `request_params`,
`response`), never to `self`, so the returned call state is the input
one.  The query string is appended to a local copy of the URL, the
`Content-Type` replacement happens on a fresh filtered list, and the
constructed `Response` is returned, not assigned. -/
def Call.invoke (c : Call) (application : App) : Except PyErr (Call × Response) :=
  let url := if optListTruthy c.query then c.url ++ "?" ++ urlencode (c.query.getD []) else c.url
  let headers0 := c.headers.getD []
  let headers :=
    if optStrTruthy c.content_type then
      (headers0.filter (fun h => lowerStr h.1 ≠ "content-type"))
        ++ [("Content-Type", c.content_type.getD "")]
    else headers0
  let request_params : RequestParams :=
    { expect_errors := true
      extra_environ := c.extra_environ
      headers := headers
      params := if optListTruthy c.form then c.form else none }
  let resp := application c.verb url request_params
  (mkResponse resp.status (resp.headers.map .pair) resp.body).map (fun r => (c, r))

/-- The sparse diff mapping collected by `OverriddenCall.__init__` from
its `**diff` keyword arguments.  `url_parameters` cannot appear among
them (it always binds the explicit named parameter), hence the separate
input structure without it. -/
structure DiffIn where
  url : Option String := none
  verb : Option String := none
  form : Option (List (String × String)) := none
  content_type : Option String := none
  headers : Option (List HeaderEntry) := none
  as_ : Option String := none
  query : Option (List (String × String)) := none
  extra_environ : Option (List (String × String)) := none

deriving DecidableEq

/-- The stored `self.diff` mapping: the input diff, plus the
`url_parameters` key that construction inserts when a `url` key was
present. -/
structure Diff where
  url : Option String := none
  url_parameters : Option (List (String × String)) := none
  verb : Option String := none
  form : Option (List (String × String)) := none
  content_type : Option String := none
  headers : Option (List HeaderEntry) := none
  as_ : Option String := none
  query : Option (List (String × String)) := none
  extra_environ : Option (List (String × String)) := none

deriving DecidableEq

/-- Embedding of the `OverriddenCall` object state: the referenced base
call, the effective call produced by the superclass constructor (the
source models override as inheritance; the inherited attribute set is
the `call` component here), and the stored diff. -/
structure OverriddenCall where
  base_call : Call
  call : Call
  diff : Diff

deriving DecidableEq

/-- The keyword arguments handed to the superclass constructor in
`OverriddenCall.__init__`: the base call's serialized fields minus
`response`, `title` and `description`, with the diff applied key by key
(`data.update(diff)`); serialized base headers arrive as raw strings. -/
def ocArgs (base_call : Call) (title : String) (description : Option String)
    (response : Option RespIn) (diff : Diff) : CallArgs :=
  let bd := base_call.to_dict
  { title := title
    url := (diff.url).getD bd.url
    verb := (diff.verb).getD bd.verb
    url_parameters :=
      match diff.url_parameters with
      | some m => some m
      | none => bd.url_parameters
    form :=
      match diff.form with
      | some f => some f
      | none => bd.form
    content_type := diff.content_type
    headers :=
      match diff.headers with
      | some h => some h
      | none => bd.headers.map (List.map HeaderEntry.raw)
    as_ :=
      match diff.as_ with
      | some s => some s
      | none => bd.as_
    query :=
      match diff.query with
      | some q => some q
      | none => bd.query
    description := description
    extra_environ := diff.extra_environ
    response := response }

/-- Embedding of `OverriddenCall.__init__` (lines 150-160): re-extract a
`url` diff entry (storing the extracted parameters under the diff's
`url_parameters` key), merge a truthy explicit `url_parameters` argument
into `diff['url_parameters']` — a `KeyError` when that key is absent,
i.e. when the diff has no `url` — then apply the diff over the base
call's serialized fields (minus response/title/description) and build
the effective call from the result. -/
def mkOverriddenCall (base_call : Call) (title : String)
    (description : Option String) (response : Option RespIn)
    (url_parameters : Option (List (String × String))) (diffIn : DiffIn) :
    Except PyErr OverriddenCall :=
  let ext : Option String × Option (List (String × String)) :=
    match diffIn.url with
    | some u =>
      let e := extract_url_parameters u
      (some e.1, some e.2)
    | none => (none, none)
  let merged : Except PyErr (Option (List (String × String))) :=
    if optListTruthy url_parameters then
      match ext.2 with
      | some m => .ok (some (foldUpdate m (url_parameters.getD [])))
      | none => .error .keyError
    else .ok ext.2
  match merged with
  | .error e => .error e
  | .ok dups =>
    let diff : Diff :=
      { url := ext.1
        url_parameters := dups
        verb := diffIn.verb
        form := diffIn.form
        content_type := diffIn.content_type
        headers := diffIn.headers
        as_ := diffIn.as_
        query := diffIn.query
        extra_environ := diffIn.extra_environ }
    (mkCall (ocArgs base_call title description response diff)).map
      (fun c => ⟨base_call, c, diff⟩)

/-- The plain-mapping form produced by `OverriddenCall.to_dict` (lines
162-172): `title`, the raw stored diff, then `description` and
`response` when present.  The diff's keys are disjoint from the other
three, so the flat Python dict corresponds exactly to this structure. -/
structure OCDict where
  title : String
  diff : Diff
  description : Option String
  response : Option RespDict

deriving DecidableEq

/-- Embedding of `OverriddenCall.to_dict`. -/
def OverriddenCall.to_dict (oc : OverriddenCall) : OCDict :=
  { title := oc.call.title
    diff := oc.diff
    description := oc.call.description
    response := oc.call.response.map Response.to_dict }

/-- Reconstruction `OverriddenCall(base_call, **d)` from a serialized
overridden-call mapping: a `url_parameters` key binds the explicit named
parameter, every other diff key lands in `**diff`. -/
def ocFromDict (base : Call) (d : OCDict) : Except PyErr OverriddenCall :=
  mkOverriddenCall base d.title d.description (d.response.map RespIn.dict)
    d.diff.url_parameters
    { url := d.diff.url
      verb := d.diff.verb
      form := d.diff.form
      content_type := d.diff.content_type
      headers := d.diff.headers
      as_ := d.diff.as_
      query := d.diff.query
      extra_environ := d.diff.extra_environ }

/-- Embedding of the `Story` object state (lines 175-178): `calls or []`
turns an absent or empty sequence into the empty list. -/
structure Story where
  base_call : Call
  calls : List OverriddenCall

deriving DecidableEq

/-- Embedding of `Story.__init__`. -/
def mkStory (base : Call) (calls : Option (List OverriddenCall)) : Story :=
  ⟨base, calls.getD []⟩

/-- The plain-mapping form produced by `Story.to_dict` (lines 180-184). -/
structure StoryDict where
  base_call : CallDict
  calls : Option (List OCDict)

deriving DecidableEq

/-- Embedding of `Story.to_dict`: the `calls` key is always emitted. -/
def Story.to_dict (s : Story) : StoryDict :=
  ⟨s.base_call.to_dict, some (s.calls.map OverriddenCall.to_dict)⟩

/-- Sequential reconstruction of the overridden calls, mirroring the
list comprehension in `Story.from_dict`. -/
def ocsFromDicts (base : Call) : List OCDict → Except PyErr (List OverriddenCall)
  | [] => .ok []
  | d :: ds =>
    match ocFromDict base d with
    | .error e => .error e
    | .ok oc =>
      match ocsFromDicts base ds with
      | .error e => .error e
      | .ok ocs => .ok (oc :: ocs)

/-- Embedding of `Story.from_dict` (lines 186-192): rebuild the base
call, then — only when `data.get('calls')` is truthy, i.e. present and
nonempty — rebuild each overridden call against that same base; an
absent or empty entry yields `None`, which `Story.__init__` turns into
the empty sequence. -/
def Story.fromDict (d : StoryDict) : Except PyErr Story :=
  match callFromDict d.base_call with
  | .error e => .error e
  | .ok base =>
    match d.calls with
    | some (x :: xs) =>
      match ocsFromDicts base (x :: xs) with
      | .error e => .error e
      | .ok cs => .ok (mkStory base (some cs))
    | _ => .ok (mkStory base none)

/-- The keys of an association-list dict. -/
def keys (l : List (String × String)) : List String := l.map Prod.fst

/-- No occurrence of the substring `": "`. -/
def noColonSpace : List Char → Bool
  | [] => true
  | [_] => true
  | a :: b :: rest => if a = ':' ∧ b = ' ' then false else noColonSpace (b :: rest)

/-- Whether an `Except` value carries a result. -/
def isOkE {α : Type} : Except PyErr α → Bool
  | .ok _ => true
  | .error _ => false

/-- Header names free of the `": "` separator, so that the serialized
`"Name: Value"` strings parse back to the same pairs. -/
def headerNamesOkB (hs : List (String × String)) : Bool :=
  hs.all (fun p => noColonSpace p.1.data)

/-- Conditions under which a `Response` survives the dict round trip:
at least one header (`Response.__init__` requires the `headers`
argument, which `to_dict` drops when empty), separator-free header
names, and a status line its own constructor can re-parse. -/
def respWFB (r : Response) : Bool :=
  !r.headers.isEmpty && headerNamesOkB r.headers && isOkE (parseStatus r.status)

/-- Conditions under which a `Call` survives the dict round trip: its
URL is free of residual parameter syntax (else reconstruction
re-extracts differently), its parameter keys are duplicate-free (always
true for constructed calls, where the dict is built by repeated
assignment), its query is not the empty mapping (normalization never
produces one), its header names are `": "`-free, and its response (if
any) satisfies the response round-trip conditions. -/
def callWFB (c : Call) : Bool :=
  !searchParam c.url.data
  && decide ((keys c.url_parameters).Nodup)
  && decide (c.query ≠ some [])
  && c.headers.all headerNamesOkB
  && c.response.all respWFB

/-- Conditions under which an `OverriddenCall` survives the dict round
trip: a `url` diff entry (already rewritten at first construction) is
free of residual parameter syntax, the stored diff has `url_parameters`
exactly when it has `url` (the invariant construction establishes), the
stored parameter keys are duplicate-free, and the response (if any)
satisfies the response round-trip conditions. -/
def ocWFB (oc : OverriddenCall) : Bool :=
  oc.diff.url.all (fun u => !searchParam u.data)
  && decide (oc.diff.url.isSome = oc.diff.url_parameters.isSome)
  && oc.diff.url_parameters.all (fun m => decide ((keys m).Nodup))
  && oc.call.response.all respWFB

/-- Conditions under which a `Story` survives the dict round trip: the
base call and every overridden call satisfy their respective
round-trip conditions. -/
def storyWFB (s : Story) : Bool :=
  callWFB s.base_call && s.calls.all ocWFB

/-- A concrete response used by the witnesses: headers nonempty,
separator-free names, parseable status. -/
def sampleResponse : Response :=
  ⟨"200 OK", [("Content-Type", "text/plain")], some "hi", 200, some "OK",
    some "text/plain", none⟩

/-- A concrete call satisfying the round-trip conditions. -/
def sampleCall : Call :=
  ⟨"t", "/users/:user_id", [("user_id", "1")], "GET", none, none,
    some [("X-Foo", "bar")], none, some [("q", "1")], none, none, some sampleResponse⟩

/-- A concrete base call for the story and override witnesses. -/
def sampleBase : Call :=
  ⟨"b", "/x", [], "GET", none, none, none, none, none, none, none, none⟩

/-- The effective call of the sample overridden call (only its title,
description and response matter for serialization). -/
def sampleEff : Call :=
  ⟨"oc", "/y", [("a", "2")], "POST", none, none, none, none, none, none, none, none⟩

/-- A concrete overridden call whose stored diff is extraction-stable. -/
def sampleOC : OverriddenCall :=
  ⟨sampleBase, sampleEff,
    { url := some "/y", url_parameters := some [("a", "2")], verb := some "POST" }⟩

/-- A concrete story for the round-trip witness. -/
def sampleStory : Story := ⟨sampleBase, [sampleOC]⟩

/-- A serialized call mapping with no optional fields. -/
def sampleBaseDict : CallDict :=
  ⟨"b", "/x", "GET", none, none, none, none, none, none, none⟩

/-- A constant application: whatever the request, answer 200 with a
text body. -/
def sampleApp : App :=
  fun _ _ _ => ⟨"200 OK", [("Content-Type", "text/plain")], some "hi"⟩

/-- A call exercising every local transformation in invoke: a truthy
query, a content type overriding an existing header, and a form. -/
def sampleInvokeCall : Call :=
  ⟨"t", "/x", [], "GET", some [("f", "1")], some "application/json",
    some [("Content-Type", "old"), ("X-Foo", "bar")], none, some [("q", "a b")],
    none, none, none⟩

/-- The response sampleApp produces through the Response constructor. -/
def sampleInvokeResponse : Response :=
  ⟨"200 OK", [("Content-Type", "text/plain")], some "hi", 200, some "OK",
    some "text/plain", none⟩

/-- The response record built by the first-position Content-Type header
in the C6 witness. -/
def sampleCtResponse : Response :=
  ⟨"200 OK", [("Content-Type", "application/json; charset=utf-8")], none, 200,
    some "OK", some "application/json", some "utf-8"⟩

/-- The constructor arguments of the C1 base call: explicit
url_parameters a=1, b=2 on a parameterless URL. -/
def c1BaseArgs : CallArgs :=
  { title := "base", url := "/x", url_parameters := some [("a", "1"), ("b", "2")] }

theorem dropWhile_length_le (p : Char → Bool) :
    ∀ l : List Char, (l.dropWhile p).length ≤ l.length := by
  intro l
  induction l with
  | nil => simp [List.dropWhile]
  | cons c cs ih =>
    simp only [List.dropWhile]
    split
    · exact Nat.le_succ_of_le ih
    · exact Nat.le_refl _

theorem takeW1_rest_lt {p : Char → Bool} {l t r : List Char}
    (h : takeW1 p l = some (t, r)) : r.length < l.length := by
  cases l with
  | nil => simp [takeW1] at h
  | cons c cs =>
    simp only [takeW1] at h
    split at h
    · cases h
      exact Nat.lt_succ_of_le (dropWhile_length_le p cs)
    · cases h

theorem dropOptSpace_length_le (l : List Char) :
    (dropOptSpace l).length ≤ l.length := by
  cases l with
  | nil => simp [dropOptSpace]
  | cons c cs =>
    simp only [dropOptSpace]
    split
    · exact Nat.le_succ_of_le (Nat.le_refl _)
    · exact Nat.le_refl _

theorem dropLit_length_le :
    ∀ {k l r : List Char}, dropLit k l = some r → r.length ≤ l.length := by
  intro k
  induction k with
  | nil =>
    intro l r h
    simp [dropLit] at h
    simp [h]
  | cons a as ih =>
    intro l r h
    cases l with
    | nil => simp [dropLit] at h
    | cons b bs =>
      simp only [dropLit] at h
      split at h
      · exact Nat.le_succ_of_le (ih h)
      · cases h

theorem matchParam_rest_lt {l k v r : List Char}
    (h : matchParam l = some (k, v, r)) : r.length < l.length := by
  unfold matchParam at h
  split at h
  · rename_i rest
    split at h
    · rename_i key r1 heq1
      split at h
      · rename_i r2
        split at h
        · rename_i value r4 heq2
          cases h
          have h1 : (':' :: r2 : List Char).length < rest.length := takeW1_rest_lt heq1
          have h2 : r.length < (dropOptSpace r2).length := takeW1_rest_lt heq2
          have h3 : (dropOptSpace r2).length ≤ r2.length := dropOptSpace_length_le r2
          simp only [List.length_cons] at h1 ⊢
          omega
        · cases h
      · cases h
    · cases h
  · cases h

theorem matchKV_rest_lt {k l r : List Char}
    (h : matchKV k l = some r) : r.length < l.length := by
  unfold matchKV at h
  split at h
  · rename_i r2 heq1
    split at h
    · rename_i value r4 heq2
      cases h
      have h1 : (':' :: r2).length ≤ l.length := dropLit_length_le heq1
      have h2 : r.length < (dropOptSpace r2).length := takeW1_rest_lt heq2
      have h3 : (dropOptSpace r2).length ≤ r2.length := dropOptSpace_length_le r2
      simp only [List.length_cons] at h1
      omega
    · cases h
  · cases h

/-- When the parameter pattern does not occur, extraction is the
identity with an empty parameter dict (the `if` in the source). -/
theorem extract_no_match (url : String) (h : searchParam url.data = false) :
    extract_url_parameters url = (url, []) := by
  simp [extract_url_parameters, h]

theorem dictInsert_notMem {d : List (String × String)} {k v}
    (h : k ∉ keys d) : dictInsert d k v = d ++ [(k, v)] := by
  induction d with
  | nil => rfl
  | cons p rest ih =>
    obtain ⟨k1, v1⟩ := p
    have h1 : ¬(k1 = k) := by
      intro hc
      exact h (by simp [keys, hc])
    have h2 : k ∉ keys rest := by
      intro hc
      exact h (List.mem_cons_of_mem _ hc)
    simp only [dictInsert]
    rw [if_neg h1, ih h2]
    simp

theorem foldUpdate_append_disjoint :
    ∀ (m d : List (String × String)), (keys m).Nodup →
      (∀ k ∈ keys m, k ∉ keys d) → foldUpdate d m = d ++ m := by
  intro m
  induction m with
  | nil => intro d _ _; simp [foldUpdate]
  | cons p ms ih =>
    intro d hnd hdisj
    obtain ⟨k, v⟩ := p
    rw [show keys ((k, v) :: ms) = k :: keys ms from rfl, List.nodup_cons] at hnd
    have hk : k ∉ keys d := hdisj k (List.mem_cons_self _ _)
    have step : foldUpdate d ((k, v) :: ms) = foldUpdate (d ++ [(k, v)]) ms := by
      simp [foldUpdate, List.foldl_cons, dictInsert_notMem hk]
    rw [step, ih (d ++ [(k, v)]) hnd.2 ?_]
    · simp
    · intro k2 hk2
      have hk2d : k2 ∉ keys d := hdisj k2 (List.mem_cons_of_mem _ hk2)
      have hkeq : keys (d ++ [(k, v)]) = keys d ++ [k] := by simp [keys]
      rw [hkeq]
      intro hmem
      rcases List.mem_append.mp hmem with hmem1 | hmem2
      · exact hk2d hmem1
      · have he : k2 = k := by simpa using hmem2
        exact hnd.1 (he ▸ hk2)

theorem foldUpdate_nil_of_nodup (m : List (String × String))
    (h : (keys m).Nodup) : foldUpdate [] m = m := by
  rw [foldUpdate_append_disjoint m [] h (by simp [keys])]
  simp

theorem splitColonSpace_round :
    ∀ (k v : List Char), noColonSpace k = true →
      splitColonSpace (k ++ ':' :: ' ' :: v) = some (k, v) := by
  intro k
  induction k with
  | nil => intro v _; simp [splitColonSpace]
  | cons a k1 ih =>
    intro v h
    cases k1 with
    | nil =>
      have hbase : splitColonSpace (':' :: ' ' :: v) = some ([], v) := by
        show (if (':' : Char) = ':' ∧ (' ' : Char) = ' ' then some (([] : List Char), v)
          else _) = some ([], v)
        rw [if_pos ⟨rfl, rfl⟩]
      show (if a = ':' ∧ (':' : Char) = ' ' then some (([] : List Char), ' ' :: v)
        else match splitColonSpace (':' :: ' ' :: v) with
          | some (x, y) => some (a :: x, y)
          | none => none) = some ([a], v)
      rw [if_neg (fun hc => absurd hc.2 (by decide)), hbase]
    | cons b k2 =>
      simp only [noColonSpace] at h
      split at h
      · exact absurd h (by simp)
      · rename_i hcond
        have ihv := ih v h
        simp only [List.cons_append] at ihv ⊢
        simp only [splitColonSpace]
        rw [if_neg hcond, ihv]

theorem parseHeader_serialize (k v : String) (h : noColonSpace k.data = true) :
    parseHeader (serializeHeader (k, v)) = (k, v) := by
  have hdata : (serializeHeader (k, v)).data = k.data ++ ':' :: ' ' :: v.data := by
    simp [serializeHeader, String.data_append]
  simp only [parseHeader, hdata, splitColonSpace_round k.data v.data h]

theorem normEntry_roundtrip (hs : List (String × String))
    (h : hs.all (fun p => noColonSpace p.1.data) = true) :
    ((hs.map serializeHeader).map HeaderEntry.raw).map normEntry = hs := by
  induction hs with
  | nil => rfl
  | cons p rest ih =>
    simp only [List.all_cons, Bool.and_eq_true] at h
    obtain ⟨k, v⟩ := p
    simp only [List.map_cons, normEntry, List.cons.injEq]
    exact ⟨parseHeader_serialize k v h.1, ih h.2⟩

theorem truthyFilter_idem (b : Option String) :
    truthyFilter (truthyFilter b) = truthyFilter b := by
  cases b with
  | none => rfl
  | some s =>
    by_cases hs : s = ""
    · simp [truthyFilter, hs]
    · simp [truthyFilter, hs]

theorem resp_roundtrip (r : Response) (h : respWFB r = true) :
    ∃ r2, respFromDict r.to_dict = .ok r2 ∧ r2.to_dict = r.to_dict := by
  simp only [respWFB, Bool.and_eq_true, Bool.not_eq_true'] at h
  obtain ⟨⟨hne, hnames⟩, hst⟩ := h
  have hne2 : r.headers ≠ [] := by
    intro hc; rw [hc] at hne; simp at hne
  obtain ⟨code, text, hps⟩ : ∃ code text, parseStatus r.status = .ok (code, text) := by
    cases hps : parseStatus r.status with
    | ok p =>
      obtain ⟨c1, t1⟩ := p
      exact ⟨c1, t1, rfl⟩
    | error e =>
      rw [hps] at hst
      simp [isOkE] at hst
  have hhs : ((r.headers.map serializeHeader).map HeaderEntry.raw).map normEntry = r.headers :=
    normEntry_roundtrip r.headers hnames
  have hstep : respFromDict r.to_dict =
      mkResponse r.status ((r.headers.map serializeHeader).map HeaderEntry.raw)
        (truthyFilter r.body) := by
    simp [respFromDict, Response.to_dict, hne2]
  rw [hstep]
  simp only [mkResponse, hhs, hps]
  refine ⟨_, rfl, ?_⟩
  simp [Response.to_dict, truthyFilter_idem]

theorem call_roundtrip (c : Call) (h : callWFB c = true) :
    ∃ c2, callFromDict c.to_dict = .ok c2 ∧ c2.to_dict = c.to_dict := by
  simp only [callWFB, Bool.and_eq_true, Bool.not_eq_true', decide_eq_true_eq] at h
  obtain ⟨⟨⟨⟨hu, hnd⟩, hq⟩, hh⟩, hr⟩ := h
  obtain ⟨ro, hro, hrod⟩ :
      ∃ ro, resolveResponse ((c.response.map Response.to_dict).map RespIn.dict) = .ok ro ∧
        ro.map Response.to_dict = c.response.map Response.to_dict := by
    cases hcr : c.response with
    | none => exact ⟨none, rfl, rfl⟩
    | some r =>
      have hw : respWFB r = true := by
        rw [hcr] at hr
        simpa [Option.all] using hr
      obtain ⟨r2, hr2, hr2d⟩ := resp_roundtrip r hw
      refine ⟨some r2, ?_, ?_⟩
      · simp [resolveResponse, hr2, Except.map]
      · simp [hr2d]
  have hext : extract_url_parameters c.url = (c.url, []) := extract_no_match c.url hu
  have hups : (if optListTruthy (some c.url_parameters)
      then foldUpdate [] c.url_parameters else []) = c.url_parameters := by
    cases hcu : c.url_parameters with
    | nil => rfl
    | cons p ps =>
      rw [hcu] at hnd
      simp only [optListTruthy, if_true]
      exact foldUpdate_nil_of_nodup _ hnd
  have hheads : normalizeHeadersOpt
      ((c.headers.map (List.map serializeHeader)).map (List.map HeaderEntry.raw)) =
      c.headers := by
    cases hch : c.headers with
    | none => rfl
    | some hs =>
      have hok : hs.all (fun p => noColonSpace p.1.data) = true := by
        rw [hch] at hh
        simpa [Option.all, headerNamesOkB] using hh
      have hrt := normEntry_roundtrip hs hok
      simp only [Option.map_some', normalizeHeadersOpt]
      exact congrArg some hrt
  have hquery : normalizeQuery c.query = c.query := by
    cases hcq : c.query with
    | none => rfl
    | some m =>
      rw [hcq] at hq
      have hm : m ≠ [] := by
        intro hc
        exact hq (by rw [hc])
      simp [normalizeQuery, hm]
  have hcompute : callFromDict c.to_dict = .ok
      { title := c.title, url := c.url, url_parameters := c.url_parameters, verb := c.verb,
        form := c.form, content_type := none, headers := c.headers, as_ := c.as_,
        query := c.query, description := c.description, extra_environ := none,
        response := ro } := by
    simp only [callFromDict, Call.to_dict, mkCall, hro, hext, Option.getD_some, hups,
      hheads, hquery]
  refine ⟨_, hcompute, ?_⟩
  simp only [Call.to_dict, hrod]

theorem resolve_roundtrip (r0 : Option Response) (h : r0.all respWFB = true) :
    ∃ ro, resolveResponse ((r0.map Response.to_dict).map RespIn.dict) = .ok ro ∧
      ro.map Response.to_dict = r0.map Response.to_dict := by
  cases r0 with
  | none => exact ⟨none, rfl, rfl⟩
  | some r =>
    have hw : respWFB r = true := by simpa [Option.all] using h
    obtain ⟨r2, hr2, hr2d⟩ := resp_roundtrip r hw
    refine ⟨some r2, ?_, ?_⟩
    · simp [resolveResponse, hr2, Except.map]
    · simp [hr2d]

theorem mkCall_ok (a : CallArgs) (ro : Option Response)
    (hro : resolveResponse a.response = .ok ro) :
    mkCall a = .ok
      { title := a.title
        url := (extract_url_parameters a.url).1
        url_parameters :=
          if optListTruthy a.url_parameters then
            foldUpdate (extract_url_parameters a.url).2 (a.url_parameters.getD [])
          else (extract_url_parameters a.url).2
        verb := a.verb
        form := a.form
        content_type := a.content_type
        headers := normalizeHeadersOpt a.headers
        as_ := a.as_
        query := normalizeQuery a.query
        description := a.description
        extra_environ := a.extra_environ
        response := ro } := by
  simp [mkCall, hro]

theorem oc_roundtrip (base : Call) (oc : OverriddenCall) (h : ocWFB oc = true) :
    ∃ oc2, ocFromDict base oc.to_dict = .ok oc2 ∧ oc2.to_dict = oc.to_dict := by
  simp only [ocWFB, Bool.and_eq_true, decide_eq_true_eq] at h
  obtain ⟨⟨⟨hus, hiso⟩, hnd⟩, hr⟩ := h
  obtain ⟨ro, hro, hrod⟩ := resolve_roundtrip oc.call.response hr
  have hstep : ocFromDict base oc.to_dict =
      (mkCall (ocArgs base oc.call.title oc.call.description
        ((oc.call.response.map Response.to_dict).map RespIn.dict) oc.diff)).map
        (fun c => ⟨base, c, oc.diff⟩) := by
    cases hdu : oc.diff.url with
    | none =>
      cases hdup : oc.diff.url_parameters with
      | none =>
        have hde : Diff.mk none none oc.diff.verb oc.diff.form oc.diff.content_type
            oc.diff.headers oc.diff.as_ oc.diff.query oc.diff.extra_environ = oc.diff := by
          rw [← hdu, ← hdup]
        simp [ocFromDict, OverriddenCall.to_dict, mkOverriddenCall, hdu, hdup,
          optListTruthy, hde]
      | some m =>
        rw [hdu, hdup] at hiso
        simp at hiso
    | some u =>
      cases hdup : oc.diff.url_parameters with
      | none =>
        rw [hdu, hdup] at hiso
        simp at hiso
      | some m =>
        have hue : extract_url_parameters u = (u, []) := by
          rw [hdu] at hus
          exact extract_no_match u (by simpa [Option.all] using hus)
        have hm : (keys m).Nodup := by
          rw [hdup] at hnd
          simpa [Option.all] using hnd
        have hfold : foldUpdate [] m = m := foldUpdate_nil_of_nodup _ hm
        have hde : Diff.mk (some u) (some m) oc.diff.verb oc.diff.form oc.diff.content_type
            oc.diff.headers oc.diff.as_ oc.diff.query oc.diff.extra_environ = oc.diff := by
          rw [← hdu, ← hdup]
        cases m with
        | nil =>
          simp [ocFromDict, OverriddenCall.to_dict, mkOverriddenCall, hdu, hdup, hue,
            optListTruthy, hde]
        | cons p ps =>
          simp [ocFromDict, OverriddenCall.to_dict, mkOverriddenCall, hdu, hdup, hue,
            optListTruthy, hfold, hde]
  have hargsresp : (ocArgs base oc.call.title oc.call.description
      ((oc.call.response.map Response.to_dict).map RespIn.dict) oc.diff).response =
      ((oc.call.response.map Response.to_dict).map RespIn.dict) := rfl
  rw [hstep, mkCall_ok _ ro (by rw [hargsresp]; exact hro)]
  refine ⟨_, rfl, ?_⟩
  simp only [OverriddenCall.to_dict, hrod, ocArgs]

theorem ocs_roundtrip (base : Call) (l : List OverriddenCall)
    (h : l.all ocWFB = true) :
    ∃ l2, ocsFromDicts base (l.map OverriddenCall.to_dict) = .ok l2 ∧
      l2.map OverriddenCall.to_dict = l.map OverriddenCall.to_dict := by
  induction l with
  | nil => exact ⟨[], rfl, rfl⟩
  | cons oc ocs ih =>
    simp only [List.all_cons, Bool.and_eq_true] at h
    obtain ⟨oc2, hoc2, hoc2d⟩ := oc_roundtrip base oc h.1
    obtain ⟨l2, hl2, hl2d⟩ := ih h.2
    refine ⟨oc2 :: l2, ?_, ?_⟩
    · simp only [List.map_cons, ocsFromDicts, hoc2, hl2]
    · simp [hoc2d, hl2d]

theorem story_roundtrip (s : Story) (h : storyWFB s = true) :
    ∃ s2, Story.fromDict s.to_dict = .ok s2 ∧ s2.to_dict = s.to_dict := by
  simp only [storyWFB, Bool.and_eq_true] at h
  obtain ⟨base2, hb2, hb2d⟩ := call_roundtrip s.base_call h.1
  cases hc : s.calls with
  | nil =>
    refine ⟨⟨base2, []⟩, ?_, ?_⟩
    · simp only [Story.fromDict, Story.to_dict, hc, hb2, List.map_nil, mkStory]
      rfl
    · simp [Story.to_dict, hb2d, hc]
  | cons oc ocs =>
    have hall : (oc :: ocs).all ocWFB = true := by rw [← hc]; exact h.2
    obtain ⟨l2, hl2, hl2d⟩ := ocs_roundtrip base2 (oc :: ocs) hall
    refine ⟨⟨base2, l2⟩, ?_, ?_⟩
    · simp only [Story.fromDict, Story.to_dict, hc, hb2, List.map_cons]
      simp only [List.map_cons] at hl2
      rw [hl2]
      rfl
    · simp only [Story.to_dict, hb2d, hl2d, hc]

/-- Generic inversion for a mapped Except value. -/
theorem map_ok_inv {α β : Type} {f : α → β} {x : Except PyErr α} {b : β}
    (h : x.map f = .ok b) : ∃ a, x = .ok a ∧ b = f a := by
  cases x with
  | ok a =>
    refine ⟨a, rfl, ?_⟩
    simpa [Except.map] using h.symm
  | error e => simp [Except.map] at h

/-- The status-line facts recorded in a successfully constructed
Response are exactly what parseStatus yields. -/
theorem mkResponse_parseStatus (s : String) (hs : List HeaderEntry) (b : Option String)
    (r : Response) (h : mkResponse s hs b = .ok r) :
    parseStatus s = .ok (r.status_code, r.status_text) := by
  cases hps : parseStatus s with
  | error e => simp [mkResponse, hps] at h
  | ok pr =>
    obtain ⟨n, t⟩ := pr
    simp only [mkResponse, hps] at h
    injection h with h2
    subst h2
    rfl

/-- The content-type facts recorded in a successfully constructed
Response are derived from the first normalized header only. -/
theorem mkResponse_content_type (s : String) (hs : List HeaderEntry) (b : Option String)
    (r : Response) (h : mkResponse s hs b = .ok r) :
    (r.content_type, r.encoding) =
      match hs.map normEntry with
      | [] => (none, none)
      | (k, v) :: _ => if k = "Content-Type" then ctParse v else (none, none) := by
  cases hps : parseStatus s with
  | error e => simp [mkResponse, hps] at h
  | ok pr =>
    obtain ⟨n, t⟩ := pr
    simp only [mkResponse, hps] at h
    injection h with h2
    subst h2
    rfl

/-- C1: the claim says diff url_parameters are merged into the base's
(base keys absent from the diff inherited).  The code instead replaces
the whole mapping: with base url_parameters a=1,b=2 and a diff carrying
url_parameters a=99 (which requires a url key in the diff, since the
explicit argument is only merged into a previously created
diff entry), the effective url_parameters is a=99 alone — b is erased.
The second conjunct documents the base's parameters. -/
theorem c1_override_replaces_url_parameters :
    ((mkCall c1BaseArgs).map (fun b => b.url_parameters)) = .ok [("a", "1"), ("b", "2")]
    ∧ ((mkCall c1BaseArgs).bind
      (fun b => (mkOverriddenCall b "t" none none (some [("a", "99")])
        { url := some "/x" }).map (fun oc => oc.call.url_parameters)))
      = .ok [("a", "99")] := by
  decide

/-- C2 counterexample: on the URL with segments b: x and ab: cd, the
substitution for key b also fires inside ab: cd, leaving the rewritten
URL /:b/a:b, which still matches the parameter pattern — contradicting
the claim that no literal parameter syntax remains. -/
theorem c2_counterexample :
    extract_url_parameters "/b: x/ab: cd" = ("/:b/a:b", [("b", "x"), ("ab", "cd")])
    ∧ searchParam ("/:b/a:b").data = true := by
  decide

/-- C2 (amended): a URL with no parameter segment is returned unchanged
with an empty mapping; a URL whose segments do not overlap other text is
rewritten to placeholder form with exactly those names and values. -/
theorem c2_extract_url_parameters :
    (∀ url : String, searchParam url.data = false →
      extract_url_parameters url = (url, []))
    ∧ extract_url_parameters "/users/user_id: 1" =
        ("/users/:user_id", [("user_id", "1")]) :=
  ⟨extract_no_match, by decide⟩

/-- C2 witness: the no-segment half applied at a concrete URL. -/
theorem c2_witness : extract_url_parameters "/things" = ("/things", []) :=
  c2_extract_url_parameters.1 "/things" (by decide)

/-- C3 counterexample: a Call built from the URL of the C2
counterexample has url /:b/a:b, which re-extracts differently on
reconstruction, so the dict round trip fails. -/
theorem c3_counterexample :
    ((mkCall { title := "t", url := "/b: x/ab: cd" }).bind
      (fun c => (callFromDict c.to_dict).map
        (fun c2 => decide (c2.to_dict = c.to_dict)))) = .ok false := by
  decide

/-- C3 (amended): the Call dict round trip holds under the conditions
of callWFB: an extraction-stable url, duplicate-free parameter keys, a
non-empty-mapping query, separator-free header names, and a
reconstructible response. -/
theorem c3_call_roundtrip (c : Call) (h : callWFB c = true) :
    ∃ c2, callFromDict c.to_dict = .ok c2 ∧ c2.to_dict = c.to_dict :=
  call_roundtrip c h

/-- C3 witness: the round trip at a concrete call with headers, a query
and a captured response. -/
theorem c3_witness :
    ∃ c2, callFromDict sampleCall.to_dict = .ok c2 ∧
      c2.to_dict = sampleCall.to_dict :=
  c3_call_roundtrip sampleCall (by decide)

/-- C4 counterexample: a Story whose base call has the round-trip
breaking URL of the C2 counterexample does not round trip. -/
theorem c4_counterexample :
    ((mkCall { title := "t", url := "/b: x/ab: cd" }).bind
      (fun c => (Story.fromDict (Story.to_dict ⟨c, []⟩)).map
        (fun s2 => decide (s2.to_dict = Story.to_dict ⟨c, []⟩)))) = .ok false := by
  decide

/-- C4 (amended): the Story dict round trip holds when the base call
satisfies the Call round-trip conditions and every overridden call's
stored diff is extraction-stable with url and url_parameters entries
present together, duplicate-free parameter keys and a reconstructible
response; and an absent or empty calls entry always yields the empty
sequence rather than an error. -/
theorem c4_story_roundtrip :
    (∀ s : Story, storyWFB s = true →
      ∃ s2, Story.fromDict s.to_dict = .ok s2 ∧ s2.to_dict = s.to_dict)
    ∧ (∀ (d : StoryDict) (base : Call), callFromDict d.base_call = .ok base →
      (d.calls = none ∨ d.calls = some []) → Story.fromDict d = .ok ⟨base, []⟩) := by
  constructor
  · exact story_roundtrip
  · intro d base hbase hc
    rcases hc with hc | hc <;>
      simp [Story.fromDict, hbase, hc, mkStory]

/-- C4 witness: the round trip at a concrete one-override story, and
the empty-calls case at a concrete dict. -/
theorem c4_witness :
    (∃ s2, Story.fromDict sampleStory.to_dict = .ok s2 ∧
      s2.to_dict = sampleStory.to_dict)
    ∧ Story.fromDict ⟨sampleBaseDict, none⟩ = .ok ⟨sampleBase, []⟩ :=
  ⟨c4_story_roundtrip.1 sampleStory (by decide),
   c4_story_roundtrip.2 ⟨sampleBaseDict, none⟩ sampleBase (by decide) (Or.inl rfl)⟩

/-- C5: the spec's end-to-end example.  Extraction on the base works as
claimed (first conjunct), but constructing the OverriddenCall with only
an explicit url_parameters argument raises KeyError instead of
succeeding, because diff has no url key and hence no url_parameters
entry to update. -/
theorem c5_example_keyerror :
    ((mkCall { title := "get user", url := "/users/user_id: 1", verb := "GET" }).map
      (fun b => (b.url, b.url_parameters, b.verb)))
      = .ok ("/users/:user_id", [("user_id", "1")], "GET")
    ∧ ((mkCall { title := "get user", url := "/users/user_id: 1", verb := "GET" }).bind
      (fun b => mkOverriddenCall b "get user 2" none none (some [("user_id", "2")]) {}))
      = .error .keyError := by
  decide

/-- C6 counterexample: a Content-Type header in second position is
never examined (the break in the source sits at loop-body level), and a
lowercase content-type in first position fails the case-sensitive
comparison; in both cases content_type stays absent instead of being
parsed. -/
theorem c6_counterexample :
    (mkResponse "200 OK"
      [.pair ("X-Foo", "bar"),
       .pair ("Content-Type", "application/json; charset=utf-8")] none).map
      (fun r => (r.content_type, r.encoding)) = .ok (none, none)
    ∧ (mkResponse "200 OK"
      [.pair ("X-Foo", "bar"),
       .pair ("Content-Type", "application/json; charset=utf-8")] none).map
      (fun r => (r.content_type, r.encoding))
      ≠ .ok (some "application/json", some "utf-8")
    ∧ (mkResponse "200 OK" [.pair ("content-type", "text/plain")] none).map
      (fun r => r.content_type) = .ok none := by
  decide

/-- C6 (amended): content_type and encoding are derived from the FIRST
header only, and only when its name is exactly Content-Type
(case-sensitive); the value application/json; charset=utf-8 parses to
content_type application/json with encoding utf-8, text/plain parses
with encoding absent, and with no headers both stay absent. -/
theorem c6_content_type_first_header :
    (∀ (st : String) (b : Option String) (r : Response),
      mkResponse st [] b = .ok r → r.content_type = none ∧ r.encoding = none)
    ∧ (∀ (st n v : String) (rest : List HeaderEntry) (b : Option String) (r : Response),
      mkResponse st (.pair (n, v) :: rest) b = .ok r →
        (r.content_type, r.encoding) =
          if n = "Content-Type" then ctParse v else (none, none))
    ∧ ctParse "application/json; charset=utf-8" = (some "application/json", some "utf-8")
    ∧ ctParse "text/plain" = (some "text/plain", none) := by
  refine ⟨?_, ?_, by decide, by decide⟩
  · intro st b r h
    have hct := mkResponse_content_type st [] b r h
    simp only [List.map_nil] at hct
    exact ⟨congrArg Prod.fst hct, congrArg Prod.snd hct⟩
  · intro st n v rest b r h
    have hct := mkResponse_content_type st (.pair (n, v) :: rest) b r h
    simpa only [List.map_cons, normEntry] using hct

/-- C6 witness: the first-header rule applied at a concrete response
whose first header is Content-Type with a charset. -/
theorem c6_witness :
    (sampleCtResponse.content_type, sampleCtResponse.encoding) =
      if "Content-Type" = "Content-Type" then
        ctParse "application/json; charset=utf-8" else (none, none) :=
  c6_content_type_first_header.2.1 "200 OK" "Content-Type"
    "application/json; charset=utf-8" [] none sampleCtResponse (by decide)

/-- C7 counterexample: a Call constructed with no URL parameters at all
still serializes url_parameters as an empty mapping — an absent
optional field serialized as an empty container, which the claim says
never happens. -/
theorem c7_counterexample :
    (mkCall { title := "t" }).map (fun c => c.to_dict.url_parameters)
      = .ok (some []) := by
  decide

/-- C7 (amended): Call.to_dict omits form, headers, query and
description exactly when the attribute is None (an empty mapping is
still serialized), and always includes url_parameters since extraction
always produces a dict; Response.to_dict omits headers and body exactly
when absent or empty. -/
theorem c7_to_dict_omission :
    (∀ c : Call,
      c.to_dict.url_parameters = some c.url_parameters
      ∧ c.to_dict.form = c.form
      ∧ (c.to_dict.headers = none ↔ c.headers = none)
      ∧ c.to_dict.query = c.query
      ∧ c.to_dict.description = c.description)
    ∧ (∀ r : Response,
      (r.to_dict.headers = none ↔ r.headers = [])
      ∧ (r.to_dict.body = none ↔ (r.body = none ∨ r.body = some ""))) := by
  constructor
  · intro c
    refine ⟨rfl, rfl, ?_, rfl, rfl⟩
    simp [Call.to_dict]
  · intro r
    constructor
    · simp only [Response.to_dict]
      split <;> simp [*]
    · simp only [Response.to_dict]
      cases hb : r.body with
      | none => simp [truthyFilter]
      | some s =>
        by_cases hs : s = "" <;> simp [truthyFilter, hs]

/-- C8: a status line with no space whose (whole) leading token fails
integer parsing makes Response construction raise ValueError; the line
200 OK parses to status_code 200 and status_text OK; and a status line
with no space leaves status_text absent. -/
theorem c8_status_line :
    (∀ (s : String) (hs : List HeaderEntry) (b : Option String),
      hasSpace s.data = false → pyIntL s.data = .error .valueError →
      mkResponse s hs b = .error .valueError)
    ∧ (mkResponse "200 OK" [] none).map (fun r => (r.status_code, r.status_text))
      = .ok (200, some "OK")
    ∧ (∀ (s : String) (hs : List HeaderEntry) (b : Option String) (r : Response),
      hasSpace s.data = false → mkResponse s hs b = .ok r → r.status_text = none) := by
  refine ⟨?_, by decide, ?_⟩
  · intro s hs b h1 h2
    have hps : parseStatus s = .error .valueError := by
      simp [parseStatus, h1, h2, Except.map]
    simp [mkResponse, hps]
  · intro s hs b r h1 h2
    have hpt := mkResponse_parseStatus s hs b r h2
    simp only [parseStatus, h1, Bool.false_eq_true, if_false] at hpt
    cases hpy : pyIntL s.data with
    | error e =>
      rw [hpy] at hpt
      simp [Except.map] at hpt
    | ok n =>
      rw [hpy] at hpt
      simp only [Except.map, Except.ok.injEq, Prod.mk.injEq] at hpt
      exact hpt.2.symm

/-- C8 witness: the ValueError case at the status line abc, and the
absent status_text case at the spaceless status line 204. -/
theorem c8_witness :
    mkResponse "abc" [] none = .error .valueError
    ∧ Response.status_text ⟨"204", [], none, 204, none, none, none⟩ = none :=
  ⟨c8_status_line.1 "abc" [] none (by decide) (by decide),
   c8_status_line.2.2 "204" [] none ⟨"204", [], none, 204, none, none, none⟩
     (by decide) (by decide)⟩

/-- C9: invoke never mutates the Call it runs: the URL with appended
query string, the filtered header list with the replaced Content-Type,
and the request parameters are all locals, and the returned Response is
not assigned; the call state threaded through the embedding comes back
unchanged. -/
theorem c9_invoke_no_mutation (c : Call) (application : App) (p : Call × Response)
    (h : c.invoke application = .ok p) : p.1 = c := by
  simp only [Call.invoke] at h
  obtain ⟨r, _, hp⟩ := map_ok_inv h
  rw [hp]

/-- C9 witness: invoking a call that exercises the query append, the
Content-Type replacement and the form path leaves the call unchanged. -/
theorem c9_witness : (sampleInvokeCall, sampleInvokeResponse).1 = sampleInvokeCall :=
  c9_invoke_no_mutation sampleInvokeCall sampleApp
    (sampleInvokeCall, sampleInvokeResponse) (by decide)

/-- C10: constructing an OverriddenCall with a truthy explicit
url_parameters argument while the diff has no url key raises KeyError:
the constructor updates the diff's url_parameters entry, which only
exists when a url key was present and re-extracted. -/
theorem c10_url_parameters_keyerror (base : Call) (title : String)
    (description : Option String) (response : Option RespIn)
    (m : List (String × String)) (d : DiffIn)
    (hurl : d.url = none) (hm : m ≠ []) :
    mkOverriddenCall base title description response (some m) d
      = .error .keyError := by
  cases m with
  | nil => exact absurd rfl hm
  | cons p ps => simp [mkOverriddenCall, hurl, optListTruthy]

/-- C10 witness: the KeyError at a concrete base call and a concrete
nonempty parameter mapping with an empty diff. -/
theorem c10_witness :
    mkOverriddenCall sampleBase "t" none none (some [("a", "1")]) {}
      = .error .keyError :=
  c10_url_parameters_keyerror sampleBase "t" none none [("a", "1")] {} rfl (by decide)
